import Mathlib

/-
  Verification of the audioMotion-analyzer visualization core
  (src/components/AudiomotionAnalyzer.js, version 3.2.1 vendored in this repo).

  The JavaScript source is shallowly embedded below: JS numbers are modelled
  as rationals (ℚ), integer-valued quantities as ℕ/ℤ, fallible calls return
  an error value alongside the (unchanged) state, and the per-frame mutations
  of the drawing loop are modelled as explicit state-passing functions.
-/

namespace AudioMotion

/-- JS `Math.round`: rounds half-up (toward +infinity), `round x = ⌊x + 1/2⌋`. -/
def jround (q : ℚ) : ℤ := ⌊q + 1/2⌋

/-- The `rounding` argument of `_freqToBin` (source line 1589): the string
`'round'` or `'floor'` selecting the `Math` rounding function. -/
inductive Rounding
  | round
  | floor
deriving DecidableEq

/-- Embeds `_freqToBin` (source lines 1589-1594):
`max = frequencyBinCount - 1` (with `frequencyBinCount = fftSize / 2`),
`bin = Math[rounding]( freq * fftSize / sampleRate )`,
returning `bin < max ? bin : max`. -/
def freqToBin (fftSize : ℕ) (sampleRate : ℚ) (rounding : Rounding) (freq : ℚ) : ℤ :=
  let mx : ℤ := (fftSize : ℤ) / 2 - 1
  let bin : ℤ :=
    match rounding with
    | .round => jround (freq * fftSize / sampleRate)
    | .floor => ⌊freq * fftSize / sampleRate⌋
  if bin < mx then bin else mx

/-- One analyzer bar, as pushed by `_calcBars` (source line 1489 / 1559):
`posX` is the on-screen x position, `dataIdx` the first FFT bin feeding the
bar, `endIdx` the last bin of a bin range (0 when the bar uses a single bin)
and `factor` the interpolation factor.  The per-channel `peak`/`hold`/`accel`
runtime state is modelled separately (see `BarChState`). -/
structure Bar where
  posX : ℚ
  dataIdx : ℤ
  endIdx : ℤ
  factor : ℚ
deriving DecidableEq, Repr

/-- Embeds the `else if ( bars.length ) bars[ bars.length - 1 ].endIdx = i`
branch of the discrete-mode loop (source lines 1492-1493): sets `endIdx := i`
on the last bar of the list, if any. -/
def setLastEnd (bs : List Bar) (i : ℤ) : List Bar :=
  match bs with
  | [] => []
  | b :: rest =>
    match rest with
    | [] => [{ b with endIdx := i }]
    | _ :: _ => b :: setLastEnd rest i

/-- Loop state of the discrete-mode branch of `_calcBars`: the bar list built
so far and `lastPos` (initialized to `-999` at source line 1481). -/
structure DiscreteState where
  bars : List Bar
  lastPos : ℚ
deriving DecidableEq, Repr

/-- One iteration of the discrete-mode loop of `_calcBars` (source lines
1483-1494) at bin index `i`.  `pos i` is the rounded logarithmic screen
position `Math.round( logWidth * ( Math.log10( binToFreq i ) - minLog ) )`,
kept abstract here (the invariants below hold for every position function,
in particular for the log positions the source computes). -/
def discreteStep (pos : ℕ → ℚ) (st : DiscreteState) (i : ℕ) : DiscreteState :=
  if st.lastPos < pos i then
    { bars := st.bars ++ [{ posX := pos i, dataIdx := (i : ℤ), endIdx := 0, factor := 0 }],
      lastPos := pos i }
  else
    { bars := setLastEnd st.bars (i : ℤ), lastPos := st.lastPos }

/-- Embeds the discrete-mode branch of `_calcBars` (source lines 1471-1494):
iterates bin indices `minIndex .. maxIndex` pushing a new bar whenever the
screen position strictly advances, otherwise growing the last bar's bin
range. -/
def calcBarsDiscrete (pos : ℕ → ℚ) (minIndex maxIndex : ℕ) : List Bar :=
  ((List.range' minIndex (maxIndex + 1 - minIndex)).foldl (discreteStep pos)
    { bars := [], lastPos := -999 }).bars

/-- Loop invariant of the discrete-mode bar-building loop: positions strictly
increase, bin start indices are nondecreasing, every stored position is at
most `lastPos`, and every stored bin index is below the next index `i` to be
processed. -/
def DiscreteInv (st : DiscreteState) (i : ℕ) : Prop :=
  (st.bars.map Bar.posX).Chain' (· < ·) ∧
  (st.bars.map Bar.dataIdx).Chain' (· ≤ ·) ∧
  (∀ q ∈ st.bars.map Bar.posX, q ≤ st.lastPos) ∧
  (∀ n ∈ st.bars.map Bar.dataIdx, n ≤ (i : ℤ))

/-- Per-bar, per-channel runtime peak state (`bar.peak`, `bar.hold`,
`bar.accel` in the source): peak height, hold frame countdown and fall
acceleration.  All three start at 0 when a bar is created. -/
structure BarChState where
  peak : ℚ
  hold : ℕ
  accel : ℚ
deriving DecidableEq, Repr

/-- One frame of the per-bar peak update performed by `_draw` for one channel:
first the reset test at source lines 1070-1074
(`if ( barHeight >= bar.peak[ channel ] ) { peak = barHeight; hold = 30; accel = 0 }`),
then the hold/decay step at source lines 1151 and 1168-1173, which runs only
while `bar.peak[ channel ] > 1`
(`if ( bar.hold[ channel ] ) hold-- else { accel++; peak -= accel }`). -/
def peakStep (barHeight : ℚ) (s : BarChState) : BarChState :=
  let s1 := if s.peak ≤ barHeight then { peak := barHeight, hold := 30, accel := 0 } else s
  if 1 < s1.peak then
    if s1.hold ≠ 0 then { s1 with hold := s1.hold - 1 }
    else { s1 with accel := s1.accel + 1, peak := s1.peak - (s1.accel + 1) }
  else s1

/-- Runs `peakStep` over a list of per-frame bar heights, oldest first. -/
def peakRun (heights : List ℚ) (s : BarChState) : BarChState :=
  heights.foldl (fun st h => peakStep h st) s

/-- The `_energy` object (`{ val, peak, hold }`, initialized to zeros at
source line 142).  `hold` is an integer because the decay branch keeps
decrementing it below zero (`energy.hold--` at source line 1246). -/
structure EnergyState where
  val : ℚ
  peak : ℚ
  hold : ℤ
deriving DecidableEq, Repr

/-- Embeds the per-frame energy update of `_draw` (source lines 1236-1247):
`energy.val = currentEnergy / ( nBars << isStereo )`, then peak/hold/decay.
The boolean `isStereo` coerces to the shift amount 0 or 1. -/
def energyUpdate (currentEnergy : ℚ) (nBars : ℕ) (isStereo : Bool) (e : EnergyState) :
    EnergyState :=
  let v : ℚ := currentEnergy / ((nBars <<< (if isStereo then 1 else 0) : ℕ) : ℚ)
  if e.peak ≤ v then { val := v, peak := v, hold := 30 }
  else if 0 < e.hold then { val := v, peak := e.peak, hold := e.hold - 1 }
  else if 0 < e.peak then
    { val := v, peak := e.peak * ((30 + e.hold) / 30), hold := e.hold - 1 }
  else { val := v, peak := e.peak, hold := e.hold }

/-- Feeds the energy tracker a constant current of 1/2 for `k` frames,
starting from the initial `{ val: 0, peak: 0, hold: 0 }` state (mono, one
bar, per-frame sum 1/2, so `energy.val` is 1/2 each frame). -/
def feedHalf : ℕ → EnergyState
  | 0 => { val := 0, peak := 0, hold := 0 }
  | k + 1 => energyUpdate (1/2) 1 false (feedHalf k)

/-
  Octave-band frequency table (source lines 1501-1511).

  The source iterates `freq = C0 * ROOT24 ** i` with `C0 = 440 * ROOT24 ^ -114`
  and `ROOT24 = 2 ^ (1/24)`, i.e. `freq i = 440 * 2 ^ ((i - 114) / 24)`, an
  irrational number.  For a positive bound `M` the comparison `freq i ≤ M` is
  equivalent (by monotonicity of `x ^ 24` on nonnegative reals) to the exact
  rational comparison `440^24 * 2^i ≤ M^24 * 2^114`, which is what the two
  decision procedures below compute.  All frequency bounds accepted by the
  analyzer are ≥ 1, so positivity always holds, and no input of interest
  falls on an equality boundary, so the double-precision comparisons the
  source performs agree with these exact ones.
-/

/-- Decides `C0 * ROOT24 ^ i ≤ bound` exactly, for a positive `bound`: with
`bound = num/den` the comparison is `440^24 * 2^i * den^24 ≤ num^24 * 2^114`
over ℤ (both sides of the original comparison raised to the 24th power and
cleared of denominators). -/
def tempFreqLe (i : ℕ) (bound : ℚ) : Bool :=
  decide ((440 : ℤ) ^ 24 * 2 ^ i * (bound.den : ℤ) ^ 24 ≤ bound.num ^ 24 * 2 ^ 114)

/-- Decides `bound ≤ C0 * ROOT24 ^ i` exactly, for a positive `bound` (same
encoding as `tempFreqLe`). -/
def tempFreqGe (i : ℕ) (bound : ℚ) : Bool :=
  decide (bound.num ^ 24 * 2 ^ 114 ≤ (440 : ℤ) ^ 24 * 2 ^ i * (bound.den : ℤ) ^ 24)

/-- Embeds the tempered-scale generation loop of `_calcBars` (source lines
1503-1511), returning the list of retained 24-tone step indices `i` (the
source stores the frequencies `C0 * ROOT24 ** i`; we keep the indices, which
determine them):
`while ( ( freq = C0 * ROOT24 ** i ) <= maxFreq ) { if ( freq >= minFreq && i % notesPerBand === 0 ) push; i++ }`.
`fuel` bounds the recursion; the loop itself stops at the first index whose
frequency exceeds `maxFreq`. -/
def buildScale (minFreq maxFreq : ℚ) (notesPerBand : ℕ) : ℕ → ℕ → List ℕ
  | 0, _ => []
  | fuel + 1, i =>
    if tempFreqLe i maxFreq then
      if tempFreqGe i minFreq && (i % notesPerBand == 0) then
        i :: buildScale minFreq maxFreq notesPerBand fuel (i + 1)
      else
        buildScale minFreq maxFreq notesPerBand fuel (i + 1)
    else []

/-- Number of equal-tempered semitone frequencies (every second 24-tone step,
`C0 * 2 ^ (k/12)`) lying within `[minFreq, maxFreq]`, for indices `k` below
`bound`.  Used to state what claim C7 asserts the bar count equals. -/
def semitoneCount (minFreq maxFreq : ℚ) (bound : ℕ) : ℕ :=
  ((List.range bound).filter
    (fun k => tempFreqGe (2 * k) minFreq && tempFreqLe (2 * k) maxFreq)).length

/-- Number of 24-tone-equal-tempered (quarter-tone) frequencies
`C0 * ROOT24 ^ i` lying within `[minFreq, maxFreq]`, for indices `i` below
`bound` — the notes the source actually retains with `notesPerBand = 1`. -/
def quarterToneCount (minFreq maxFreq : ℚ) (bound : ℕ) : ℕ :=
  ((List.range bound).filter
    (fun i => tempFreqGe i minFreq && tempFreqLe i maxFreq)).length

/-- Loop state of the octave-band branch of `_calcBars` (source lines
1519-1521): bars built so far, `prevBin`, `prevIdx` and `nBars`. -/
structure OctaveState where
  bars : List Bar
  prevBin : ℤ
  prevIdx : ℤ
  nBars : ℕ

/-- Embeds the run-factor update of `_calcBars` (source lines 1540-1543):
assigns `factor = (i+1)/n` to the last `n` bars of the list. -/
def setRunFactors (bs : List Bar) (n : ℕ) : List Bar :=
  let k := bs.length - n
  (bs.take k) ++ ((bs.drop k).enum.map
    (fun p => { p.2 with factor := ((p.1 : ℚ) + 1) / (n : ℚ) }))

/-- Embeds the octave-band bar-building loop of `_calcBars` (source lines
1523-1569), processing the tempered-scale entries in order.  `binOf` gives
`this._freqToBin( freq )` for a scale index (kept abstract: the bin of an
irrational note frequency; every theorem below holds for any such function),
`barWidth` is `canvas.width / temperedScale.length`. -/
def octaveBuild (binOf : ℕ → ℤ) (barWidth : ℚ) :
    List ℕ → ℕ → OctaveState → OctaveState
  | [], _, st => st
  | s :: rest, index, st =>
    let bin := binOf s
    -- start from the last used FFT bin
    let idx : ℤ := if 0 < st.prevBin ∧ st.prevBin + 1 ≤ bin then st.prevBin + 1 else bin
    -- interpolation-run bookkeeping
    let bars1 := if idx = st.prevIdx then st.bars
      else if 1 < st.nBars then setRunFactors st.bars st.nBars else st.bars
    let prevIdx1 := if idx = st.prevIdx then st.prevIdx else idx
    let nBars1 := if idx = st.prevIdx then st.nBars + 1 else 1
    -- use half the bins up to the next band, when there is one
    let prevBin1 : ℤ :=
      match rest with
      | [] => bin
      | next :: _ =>
        let nextBin := binOf next
        if 1 < nextBin - bin then bin + jround (((nextBin - bin : ℤ) : ℚ) / 2) else bin
    let endIdx : ℤ := if 0 < prevBin1 - idx then prevBin1 else 0
    octaveBuild binOf barWidth rest (index + 1)
      { bars := bars1 ++ [{ posX := (index : ℚ) * barWidth, dataIdx := idx,
                            endIdx := endIdx, factor := 0 }],
        prevBin := prevBin1, prevIdx := prevIdx1, nBars := nBars1 }

/-- Full octave-band bar list for a tempered scale: runs `octaveBuild` from
the initial state `prevBin = 0`, `prevIdx = -1`, `nBars = 0` (source lines
1519-1521). -/
def calcBarsOctave (binOf : ℕ → ℤ) (barWidth : ℚ) (scale : List ℕ) : List Bar :=
  (octaveBuild binOf barWidth scale 0 { bars := [], prevBin := 0, prevIdx := -1, nBars := 0 }).bars

/-- One entry of a gradient's `colorStops` array: either a plain color string
(`pos = none`) or a `{ pos, color }` object. -/
structure ColorStop where
  pos : Option ℚ
  color : String
deriving DecidableEq, Repr

/-- A registered gradient (`this._gradients[ name ]`): background color,
optional direction (`dir: 'h'` for horizontal) and the color stop list. -/
structure Gradient where
  bgColor : String
  dir : Option String
  colorStops : List ColorStop
deriving DecidableEq, Repr

/-- The `options` argument of `registerGradient` (source lines 662-683):
optional `bgColor`, `dir` and `colorStops` properties. -/
structure GradientOptions where
  bgColor : Option String
  dir : Option String
  colorStops : Option (List ColorStop)
deriving DecidableEq, Repr

/-- The `params` argument of `setLedParams` (source lines 719-731). -/
structure LedParamsInput where
  maxLeds : ℚ
  spaceV : ℚ
  spaceH : ℚ
deriving DecidableEq, Repr

/-- The `AudioMotionError` codes raised by the embedded methods. -/
inductive Err
  | invalidMode
  | reflexOutOfRange
  | frequencyTooLow
  | gradientInvalidName
  | gradientMissingColor
deriving DecidableEq, Repr

/-- Configuration state of one analyzer instance: the fields mutated by the
setters embedded below.  `gradients` is the `this._gradients` map (a lookup
function, updated by `registerGradient`); `ledParams` is `this._ledParams`
(`undefined` modelled as `none`). -/
structure AnalyzerState where
  mode : ℤ
  reflexRatio : ℚ
  minFreq : ℚ
  maxFreq : ℚ
  ledParams : Option (ℚ × ℚ × ℚ)
  gradients : String → Option Gradient

/-- The built-in `classic` gradient (source lines 38-45). -/
def classicGradient : Gradient :=
  { bgColor := "#111", dir := none,
    colorStops := [ { pos := none, color := "hsl( 0, 100%, 50% )" },
                    { pos := some (6/10), color := "hsl( 60, 100%, 50% )" },
                    { pos := none, color := "hsl( 120, 100%, 50% )" } ] }

/-- The built-in `prism` gradient (source lines 46-55). -/
def prismGradient : Gradient :=
  { bgColor := "#111", dir := none,
    colorStops := [ { pos := none, color := "hsl( 0, 100%, 50% )" },
                    { pos := none, color := "hsl( 60, 100%, 50% )" },
                    { pos := none, color := "hsl( 120, 100%, 50% )" },
                    { pos := none, color := "hsl( 180, 100%, 50% )" },
                    { pos := none, color := "hsl( 240, 100%, 50% )" } ] }

/-- The built-in `rainbow` gradient (source lines 56-68). -/
def rainbowGradient : Gradient :=
  { bgColor := "#111", dir := some "h",
    colorStops := [ { pos := none, color := "hsl( 0, 100%, 50% )" },
                    { pos := none, color := "hsl( 60, 100%, 50% )" },
                    { pos := none, color := "hsl( 120, 100%, 50% )" },
                    { pos := none, color := "hsl( 180, 100%, 47% )" },
                    { pos := none, color := "hsl( 240, 100%, 58% )" },
                    { pos := none, color := "hsl( 300, 100%, 50% )" },
                    { pos := none, color := "hsl( 360, 100%, 50% )" } ] }

/-- The gradient map populated by the constructor (source lines 37-69). -/
def defaultGradients : String → Option Gradient := fun name =>
  if name = "classic" then some classicGradient
  else if name = "prism" then some prismGradient
  else if name = "rainbow" then some rainbowGradient
  else none

/-- An analyzer state holding the constructor defaults of `_setProps`
(source lines 1664-1695: `mode: 0`, `minFreq: 20`, `maxFreq: 22000`,
`reflexRatio: 0`) with no custom LED parameters and the built-in
gradients. -/
def initState : AnalyzerState :=
  { mode := 0, reflexRatio := 0, minFreq := 20, maxFreq := 22000,
    ledParams := none, gradients := defaultGradients }

/-
  Setters.  In the source each of these throws an `AudioMotionError` before
  assigning anything when validation fails, so they are embedded as functions
  returning the raised error (or `none`) together with the resulting state;
  the state component equals the input state exactly in the error cases,
  mirroring that the `throw` precedes every assignment.
-/

/-- JS truncation toward zero, the first step of the `ToInt32` coercion
performed by `value | 0`. -/
def jsTrunc (q : ℚ) : ℤ :=
  if 0 ≤ q then ⌊q⌋ else ⌈q⌉

/-- JS `ToInt32` (`value | 0`): truncate toward zero, reduce modulo `2^32`
into `[0, 2^32)` and map the upper half down by `2^32`, landing in
`[-2^31, 2^31)`.  So `10.5 → 10`, `-0.5 → 0`, `2^32 → 0`, `2^32 + 5 → 5`. -/
def toInt32 (q : ℚ) : ℤ :=
  let int32bit := jsTrunc q % 2 ^ 32
  if 2 ^ 31 ≤ int32bit then int32bit - 2 ^ 32 else int32bit

/-- Embeds `set mode` (source lines 289-299): `const mode = value | 0`
(the `ToInt32` truncate-and-wrap coercion) followed by
`mode >= 0 && mode <= 10 && mode !== 9`; the coerced value is stored. -/
def setMode (value : ℚ) (s : AnalyzerState) : Option Err × AnalyzerState :=
  let mode := toInt32 value
  if 0 ≤ mode ∧ mode ≤ 10 ∧ mode ≠ 9 then (none, { s with mode := mode })
  else (some .invalidMode, s)

/-- Embeds `set reflexRatio` (source lines 352-362): rejects
`value < 0 || value >= 1`. -/
def setReflexRatio (value : ℚ) (s : AnalyzerState) : Option Err × AnalyzerState :=
  if value < 0 ∨ 1 ≤ value then (some .reflexOutOfRange, s)
  else (none, { s with reflexRatio := value })

/-- Embeds `set minFreq` (source lines 369-376): rejects `value < 1`. -/
def setMinFreq (value : ℚ) (s : AnalyzerState) : Option Err × AnalyzerState :=
  if value < 1 then (some .frequencyTooLow, s)
  else (none, { s with minFreq := value })

/-- Embeds `set maxFreq` (source lines 380-387): rejects `value < 1`. -/
def setMaxFreq (value : ℚ) (s : AnalyzerState) : Option Err × AnalyzerState :=
  if value < 1 then (some .frequencyTooLow, s)
  else (none, { s with maxFreq := value })

/-- Embeds `setFreqRange` (source lines 703-711): rejects `min < 1 || max < 1`,
otherwise stores `_minFreq = Math.min( min, max )` and
`_maxFreq = Math.max( min, max )`. -/
def setFreqRange (mn mx : ℚ) (s : AnalyzerState) : Option Err × AnalyzerState :=
  if mn < 1 ∨ mx < 1 then (some .frequencyTooLow, s)
  else (none, { s with minFreq := min mn mx, maxFreq := max mn mx })

/-- Embeds `registerGradient` (source lines 662-683): rejects an empty
(trimmed) name, then a missing or shorter-than-2 `colorStops` list, then
stores the gradient under `name`, unconditionally overwriting any existing
entry (`this._gradients[ name ] = {...}`; the source performs no
duplicate-name check).  `bgColor` defaults to `'#111'`. -/
def registerGradient (name : String) (options : GradientOptions) (s : AnalyzerState) :
    Option Err × AnalyzerState :=
  -- `name.trim().length === 0` holds exactly when every character of `name`
  -- is whitespace (trim strips leading and trailing whitespace)
  if name.toList.all (fun c => c.isWhitespace) then (some .gradientInvalidName, s)
  else
    match options.colorStops with
    | none => (some .gradientMissingColor, s)
    | some stops =>
      if stops.length < 2 then (some .gradientMissingColor, s)
      else
        let g : Gradient := { bgColor := options.bgColor.getD "#111", dir := options.dir,
                              colorStops := stops }
        (none, { s with gradients := fun n => if n = name then some g else s.gradients n })

/-- JS `x > y` where `x` may be `undefined`: any comparison with `undefined`
is false. -/
def jsGt (x : Option ℚ) (y : ℚ) : Bool :=
  match x with
  | none => false
  | some v => decide (y < v)

/-- JS `x >= y` where `x` may be `undefined`: false when `undefined`. -/
def jsGe (x : Option ℚ) (y : ℚ) : Bool :=
  match x with
  | none => false
  | some v => decide (y ≤ v)

/-- Embeds `setLedParams` (source lines 719-731) as written.  The method body
declares `let maxLeds, spaceV, spaceH;` (left undefined) and then, inside
`if ( params ) { ... }`, declares NEW block-scoped variables with
`let maxLeds = params.maxLeds; let spaceV = +params.spaceV; let spaceH = +params.spaceH;`.
These inner `let` bindings shadow the outer variables, which therefore still
hold `undefined` when the guard
`maxLeds > 0 && spaceV > 0 && spaceH >= 0` is evaluated, so the guard is
always false and `this._ledParams` is always set to `undefined` — the
`params` argument is never consulted. -/
def setLedParams (params : Option LedParamsInput) (s : AnalyzerState) : AnalyzerState :=
  let maxLeds : Option ℚ := none  -- outer `let maxLeds;`, never re-assigned
  let spaceV : Option ℚ := none   -- outer `let spaceV;`, never re-assigned
  let spaceH : Option ℚ := none   -- outer `let spaceH;`, never re-assigned
  let _ := params                 -- read only by the shadowed inner bindings
  { s with ledParams :=
      if jsGt maxLeds 0 && jsGt spaceV 0 && jsGe spaceH 0 then
        -- unreachable: all three variables are undefined here
        some (maxLeds.getD 0, spaceV.getD 0, spaceH.getD 0)
      else none }

/-- The own keys of the `presets` object literal of `getEnergy` (source
lines 629-635). -/
def energyPresets (name : String) : Option (ℚ × ℚ) :=
  if name = "bass" then some (20, 250)
  else if name = "lowMid" then some (250, 500)
  else if name = "mid" then some (500, 2000)
  else if name = "highMid" then some (2000, 4000)
  else if name = "treble" then some (4000, 16000)
  else none

/-- The property names an object literal inherits from `Object.prototype`.
For these, `presets[ name ]` yields a truthy non-iterable value (a function,
or the prototype object itself for `__proto__`). -/
def objectProtoKeys : List String :=
  ["constructor", "hasOwnProperty", "isPrototypeOf", "propertyIsEnumerable",
   "toLocaleString", "toString", "valueOf",
   "__defineGetter__", "__defineSetter__", "__lookupGetter__", "__lookupSetter__",
   "__proto__"]

/-- The runtime error the `getEnergy` string path can raise. -/
inductive JsErr
  | typeError
deriving DecidableEq, Repr

/-- Embeds the string branch of `getEnergy` (source lines 620-654): a string
argument is first checked against `'peak'`; then `presets[ startFreq ]` is
looked up — an own key yields the preset range, but a property name
inherited from `Object.prototype` (e.g. `'constructor'`, `'toString'`)
yields a truthy function, so the `if ( ! presets[ startFreq ] ) return null`
guard at line 637 does not fire and the array destructuring
`[ startFreq, endFreq ] = presets[ startFreq ]` at line 640 throws a
`TypeError` on the non-iterable value; only a lookup yielding `undefined`
returns `null`.  A known preset averages the FFT byte data over the preset's
bin range and channels.  The method performs no writes to the instance, so
it is embedded as a pure function of the relevant state: `fftData channel
bin` is the magnitude buffer, `energyPeak` is `this._energy.peak`. -/
def getEnergyStr (fftSize : ℕ) (sampleRate : ℚ) (isStereo : Bool)
    (fftData : ℕ → ℕ → ℚ) (energyPeak : ℚ) (name : String) :
    Except JsErr (Option ℚ) :=
  if name = "peak" then .ok (some energyPeak)
  else
    match energyPresets name with
    | none =>
      if name ∈ objectProtoKeys then .error .typeError
      else .ok none
    | some (f1, f2) =>
      let startBin := freqToBin fftSize sampleRate .round f1
      let endBin := freqToBin fftSize sampleRate .round f2
      let chnCount : ℕ := if isStereo then 2 else 1
      let bins := List.range' startBin.toNat (endBin.toNat + 1 - startBin.toNat)
      let energy : ℚ := ((List.range chnCount).map
        (fun channel => (bins.map (fftData channel)).sum)).sum
      .ok (some (energy / ((endBin : ℚ) - (startBin : ℚ) + 1) / (chnCount : ℚ) / 255))

/-
  ============================================================
  Claim C1 — per-bar peak/hold/decay state machine
  ============================================================
-/

/-- C1 counterexample.  The claim asserts `peakHeight` is "floored at 0 so it
is never negative"; the code has no floor: from a zero state, one frame of
bar height 12 followed by 34 frames of height 0 drives `peakHeight` to `-3`
(hold 30 frames, then fall by 1, 2, 3, 4, 5: `12 → 11 → 9 → 6 → 2 → -3`). -/
theorem peakRun_goes_negative :
    (peakRun ((12 : ℚ) :: List.replicate 34 0) { peak := 0, hold := 0, accel := 0 }).peak
      = -3 ∧
    (peakRun ((12 : ℚ) :: List.replicate 34 0) { peak := 0, hold := 0, accel := 0 }).peak
      < 0 := by
  norm_num [peakRun, peakStep, List.replicate]

/-- C1 (amended).  The per-frame peak update: if the bar height reaches the
stored peak, the peak is set to the height, the hold counter to 30 and the
acceleration to 0 — and, in the same frame, the hold counter is already
decremented to 29 whenever the new peak exceeds 1.  The hold/decay machinery
runs only while the stored peak exceeds 1: below that threshold the state
freezes.  During decay the acceleration grows by 1 each frame and is
subtracted from the peak without any floor at 0 (so the peak can briefly
become negative, after which the next frame's height comparison resets it);
whenever the height does not exceed the peak, the peak never increases. -/
theorem peakStep_cases (h : ℚ) (s : BarChState) :
    (s.peak ≤ h → 1 < h → peakStep h s = ⟨h, 29, 0⟩) ∧
    (s.peak ≤ h → h ≤ 1 → peakStep h s = ⟨h, 30, 0⟩) ∧
    (h < s.peak → 1 < s.peak → s.hold ≠ 0 →
      peakStep h s = ⟨s.peak, s.hold - 1, s.accel⟩) ∧
    (h < s.peak → 1 < s.peak → s.hold = 0 →
      peakStep h s = ⟨s.peak - (s.accel + 1), 0, s.accel + 1⟩) ∧
    (h < s.peak → s.peak ≤ 1 → peakStep h s = s) ∧
    (h ≤ s.peak → 0 ≤ s.accel → (peakStep h s).peak ≤ s.peak) := by
  refine ⟨?_, ?_, ?_, ?_, ?_, ?_⟩
  · intro hle hgt1
    simp [peakStep, if_pos hle, hgt1]
  · intro hle hle1
    simp [peakStep, if_pos hle, not_lt.mpr hle1]
  · intro hlt hpk hhold
    simp [peakStep, if_neg (not_le.mpr hlt), hpk, hhold]
  · intro hlt hpk hhold
    simp [peakStep, if_neg (not_le.mpr hlt), hpk, hhold]
  · intro hlt hpk1
    simp [peakStep, if_neg (not_le.mpr hlt), not_lt.mpr hpk1]
  · intro hle hacc
    by_cases hreset : s.peak ≤ h
    · have heq : h = s.peak := le_antisymm hle hreset
      subst heq
      simp only [peakStep, if_pos hreset]
      split_ifs <;> simp
    · simp only [peakStep, if_neg hreset]
      split_ifs with h1 h2
      · simp
      · simp only
        linarith
      · simp

/-- C1 witness: one concrete decay frame (height 0 against peak 5, hold
expired, acceleration 1) obtained from `peakStep_cases`. -/
theorem peakStep_cases_at : peakStep 0 ⟨5, 0, 1⟩ = ⟨5 - (1 + 1), 0, 1 + 1⟩ :=
  (peakStep_cases 0 ⟨5, 0, 1⟩).2.2.2.1 (by norm_num) (by norm_num) rfl

/-
  ============================================================
  Claim C2 — energy tracker mean and convergence
  ============================================================
-/

/-- Helper: feeding a constant current of 1/2 pins the energy state to
`{ val = 1/2, peak = 1/2, hold = 30 }` from the first frame on. -/
theorem feedHalf_succ (k : ℕ) : feedHalf (k + 1) = ⟨1/2, 1/2, 30⟩ := by
  induction k with
  | zero => norm_num [feedHalf, energyUpdate, Nat.shiftLeft_eq]
  | succ k ih =>
    rw [show feedHalf (k + 1 + 1) = energyUpdate (1/2) 1 false (feedHalf (k + 1)) from rfl, ih]
    norm_num [energyUpdate, Nat.shiftLeft_eq]

/-- C2.  Every frame sets `energy.val` to the accumulated height sum divided
by `barCount × channelCount` (the source's `nBars << isStereo`), and feeding
a constant current of 1/2 from the initial state makes `energy.peak` reach
1/2 after more than 30 frames (in fact after one) and never exceed it. -/
theorem energy_mean_and_convergence :
    (∀ (currentEnergy : ℚ) (nBars : ℕ) (isStereo : Bool) (e : EnergyState),
      (energyUpdate currentEnergy nBars isStereo e).val
        = currentEnergy / ((nBars : ℚ) * (if isStereo then 2 else 1))) ∧
    (∀ k : ℕ, 30 < k → (feedHalf k).peak = 1/2) ∧
    (∀ k : ℕ, (feedHalf k).peak ≤ 1/2) := by
  refine ⟨?_, ?_, ?_⟩
  · intro ce n st e
    have hsh : ((n <<< (if st then 1 else 0) : ℕ) : ℚ) = (n : ℚ) * (if st then 2 else 1) := by
      cases st <;> simp [Nat.shiftLeft_eq]
    simp only [energyUpdate, hsh]
    split_ifs <;> rfl
  · intro k hk
    obtain ⟨j, rfl⟩ : ∃ j, k = j + 1 := ⟨k - 1, by omega⟩
    rw [feedHalf_succ]
  · intro k
    cases k with
    | zero => norm_num [feedHalf]
    | succ j => rw [feedHalf_succ]

/-- C2 witness: after 31 (> 30) frames of constant current 1/2, the peak is
exactly 1/2 and does not exceed it. -/
theorem energy_convergence_at :
    (feedHalf 31).peak = 1/2 ∧ (feedHalf 31).peak ≤ 1/2 :=
  ⟨energy_mean_and_convergence.2.1 31 (by decide), energy_mean_and_convergence.2.2 31⟩

/-
  ============================================================
  Claim C3 — user LED overrides (setLedParams)
  ============================================================
-/

/-- C3.  A valid LED override (`maxLeds > 0`, `spaceV > 0`, `spaceH ≥ 0`)
passed to `setLedParams` is nonetheless discarded: because the inner `let`
declarations shadow the outer variables, the stored `_ledParams` is always
`undefined`, exactly as for a call with no argument — the override never
reaches `_calcLeds`, so no LED configuration is ever computed from it. -/
theorem setLedParams_ignores_override :
    ((0 : ℚ) < 16 ∧ (0 : ℚ) < 4 ∧ (0 : ℚ) ≤ 1/2) ∧
    (setLedParams (some ⟨16, 4, 1/2⟩) initState).ledParams = none ∧
    (setLedParams none initState).ledParams = none := by
  refine ⟨⟨by norm_num, by norm_num, by norm_num⟩, rfl, rfl⟩

/-
  ============================================================
  Claim C5 — registerGradient validation
  ============================================================
-/

/-- C5 counterexample.  Registering a valid 2-color gradient over the
reserved built-in name `classic` raises no error: the call succeeds and
silently replaces the built-in definition (the source has no duplicate-name
check), contradicting the claimed duplicate-name error. -/
theorem registerGradient_overwrites_reserved :
    (registerGradient "classic" ⟨none, none, some [⟨none, "#000"⟩, ⟨none, "#fff"⟩]⟩
        initState).1 = none ∧
    (registerGradient "classic" ⟨none, none, some [⟨none, "#000"⟩, ⟨none, "#fff"⟩]⟩
        initState).2.gradients "classic"
      = some ⟨"#111", none, [⟨none, "#000"⟩, ⟨none, "#fff"⟩]⟩ ∧
    initState.gradients "classic" = some classicGradient ∧
    classicGradient ≠ ⟨"#111", none, [⟨none, "#000"⟩, ⟨none, "#fff"⟩]⟩ := by
  refine ⟨by decide, by decide, rfl, by simp [classicGradient]⟩

/-- C5 (amended).  For a non-blank name, `registerGradient` raises the
invalid-gradient (missing-color) error exactly when fewer than 2 color
entries are supplied, leaving the state unchanged; otherwise it stores the
gradient under the name — overwriting any existing registration, including
the reserved built-in names, without a duplicate-name error — and leaves
every other name's registration untouched. -/
theorem registerGradient_cases (name : String) (options : GradientOptions)
    (s : AnalyzerState) (hname : name.toList.all (fun c => c.isWhitespace) = false) :
    ((options.colorStops.getD []).length < 2 →
      registerGradient name options s = (some Err.gradientMissingColor, s)) ∧
    (∀ stops, options.colorStops = some stops → 2 ≤ stops.length →
      (registerGradient name options s).1 = none ∧
      (registerGradient name options s).2.gradients name
        = some ⟨options.bgColor.getD "#111", options.dir, stops⟩ ∧
      (∀ other, other ≠ name →
        (registerGradient name options s).2.gradients other = s.gradients other)) := by
  obtain ⟨c, hc, hcw⟩ : ∃ x ∈ name.data, x.isWhitespace = false := by simpa using hname
  have hname' : ¬ ∀ x ∈ name.data, x.isWhitespace = true := by
    intro hall
    rw [hall c hc] at hcw
    cases hcw
  constructor
  · intro hlen
    cases hcs : options.colorStops with
    | none => simp [registerGradient, hname', hcs]
    | some stops =>
      rw [hcs] at hlen
      simp only [Option.getD_some] at hlen
      simp [registerGradient, hname', hcs, hlen]
  · intro stops hcs hlen
    have hnotlt : ¬ stops.length < 2 := by omega
    refine ⟨?_, ?_, ?_⟩
    · simp [registerGradient, hname', hcs, hnotlt]
    · simp [registerGradient, hname', hcs, hnotlt]
    · intro other hother
      simp [registerGradient, hname', hcs, hnotlt, hother]

/-- C5 witness: registering a one-color gradient under a fresh non-blank
name fails with the missing-color error and leaves the state unchanged. -/
theorem registerGradient_cases_at :
    registerGradient "mygrad" ⟨none, none, some [⟨none, "#abc"⟩]⟩ initState
      = (some Err.gradientMissingColor, initState) :=
  (registerGradient_cases "mygrad" ⟨none, none, some [⟨none, "#abc"⟩]⟩ initState
    (by decide)).1 (by decide)

/-
  ============================================================
  Claim C6 — invalid configuration values are rejected atomically
  ============================================================
-/

/-- C6 counterexample.  The `value | 0` coercion makes the mode setter
accept values the claim calls invalid: `10.5` (outside `[0,10]`) is coerced
to 10 and stored without an error, and `2^32` is coerced to 0 and stored
without an error — no synchronous rejection, and the state is mutated. -/
theorem setMode_accepts_out_of_range :
    ((10 : ℚ) < 21/2 ∧ setMode (21/2) initState = (none, { initState with mode := 10 })) ∧
    ((10 : ℚ) < 2 ^ 32 ∧ setMode (2 ^ 32) initState = (none, { initState with mode := 0 })) := by
  have h1 : toInt32 (21/2) = 10 := by norm_num [toInt32, jsTrunc]
  have h2 : toInt32 (2 ^ 32) = 0 := by norm_num [toInt32, jsTrunc]
  refine ⟨⟨by norm_num, ?_⟩, ⟨by norm_num, ?_⟩⟩ <;> simp [setMode, h1, h2]

/-- C6 (amended).  The mode setter first coerces its argument with `ToInt32`
(`value | 0`: truncate toward zero, wrap modulo `2^32` into
`[-2^31, 2^31)`); it raises the invalid-mode error exactly when the coerced
value lies outside `[0,10]` or equals 9 — so an out-of-range input whose
coercion lands in the valid set (`10.5 → 10`, `2^32 → 0`) is accepted and
stored.  Frequencies below 1 and reflex ratios outside `[0,1)` are rejected
as claimed.  Every rejecting setter returns the state exactly as it was
(the source throws before any assignment), and the instance remains usable:
a subsequent valid call still succeeds. -/
theorem setters_validation_cases (s : AnalyzerState) :
    (∀ v : ℚ, (toInt32 v < 0 ∨ 10 < toInt32 v ∨ toInt32 v = 9) →
      setMode v s = (some Err.invalidMode, s)) ∧
    (∀ v : ℚ, 0 ≤ toInt32 v → toInt32 v ≤ 10 → toInt32 v ≠ 9 →
      setMode v s = (none, { s with mode := toInt32 v })) ∧
    (∀ v : ℚ, v < 1 → setMinFreq v s = (some Err.frequencyTooLow, s)) ∧
    (∀ v : ℚ, v < 1 → setMaxFreq v s = (some Err.frequencyTooLow, s)) ∧
    (∀ v : ℚ, (v < 0 ∨ 1 ≤ v) → setReflexRatio v s = (some Err.reflexOutOfRange, s)) ∧
    (∀ v w : ℚ, (toInt32 v < 0 ∨ 10 < toInt32 v ∨ toInt32 v = 9) →
      0 ≤ toInt32 w → toInt32 w ≤ 10 → toInt32 w ≠ 9 →
      setMode w ((setMode v s).2) = (none, { s with mode := toInt32 w })) := by
  refine ⟨?_, ?_, ?_, ?_, ?_, ?_⟩
  · intro v hv
    have hc : ¬ (0 ≤ toInt32 v ∧ toInt32 v ≤ 10 ∧ toInt32 v ≠ 9) := by omega
    simp [setMode, hc]
  · intro v h0 h10 h9
    simp [setMode, h0, h10, h9]
  · intro v hv
    simp [setMinFreq, hv]
  · intro v hv
    simp [setMaxFreq, hv]
  · intro v hv
    simp [setReflexRatio, hv]
  · intro v w hv h0 h10 h9
    have hc : ¬ (0 ≤ toInt32 v ∧ toInt32 v ≤ 10 ∧ toInt32 v ≠ 9) := by omega
    simp [setMode, hc, h0, h10, h9]

/-- C6 witness: mode 11 (coerced to 11), frequency 1/2 and reflex ratio 1
are all rejected with the initial state returned unchanged, and mode 3
still succeeds afterwards. -/
theorem setters_validation_at :
    setMode 11 initState = (some Err.invalidMode, initState) ∧
    setMinFreq (1/2) initState = (some Err.frequencyTooLow, initState) ∧
    setMaxFreq (1/2) initState = (some Err.frequencyTooLow, initState) ∧
    setReflexRatio 1 initState = (some Err.reflexOutOfRange, initState) ∧
    setMode 3 ((setMode 11 initState).2) = (none, { initState with mode := toInt32 3 }) :=
  ⟨(setters_validation_cases initState).1 11 (by norm_num [toInt32, jsTrunc]),
   (setters_validation_cases initState).2.2.1 (1/2) (by norm_num),
   (setters_validation_cases initState).2.2.2.1 (1/2) (by norm_num),
   (setters_validation_cases initState).2.2.2.2.1 1 (by norm_num),
   (setters_validation_cases initState).2.2.2.2.2 11 3
     (by norm_num [toInt32, jsTrunc]) (by norm_num [toInt32, jsTrunc])
     (by norm_num [toInt32, jsTrunc]) (by norm_num [toInt32, jsTrunc])⟩

/-
  ============================================================
  Claim C9 — setFreqRange argument ordering
  ============================================================
-/

/-- C9.  For any two frequencies ≥ 1 — in either order — `setFreqRange`
succeeds, storing the smaller as `minFreq` and the larger as `maxFreq`, so
`minFreq ≤ maxFreq` holds after every successful call. -/
theorem setFreqRange_orders (mn mx : ℚ) (s : AnalyzerState)
    (h1 : 1 ≤ mn) (h2 : 1 ≤ mx) :
    setFreqRange mn mx s = (none, { s with minFreq := min mn mx, maxFreq := max mn mx }) ∧
    min mn mx ≤ max mn mx := by
  constructor
  · have hc : ¬ (mn < 1 ∨ mx < 1) := by
      push_neg
      exact ⟨h1, h2⟩
    simp [setFreqRange, hc]
  · exact min_le_max

/-- C9 witness: `setFreqRange(300, 20)` succeeds with the arguments swapped
into order. -/
theorem setFreqRange_orders_at :
    setFreqRange 300 20 initState
      = (none, { initState with minFreq := min 300 20, maxFreq := max 300 20 }) ∧
    min (300 : ℚ) 20 ≤ max 300 20 :=
  setFreqRange_orders 300 20 initState (by norm_num) (by norm_num)

/-
  ============================================================
  Claim C10 — getEnergy with an unknown preset name
  ============================================================
-/

/-- C10 counterexample.  `'constructor'` is neither `'peak'` nor a preset
name, yet `getEnergy('constructor')` does not return `null`: the lookup
`presets['constructor']` hits the function inherited from
`Object.prototype`, the falsy guard does not fire, and the array
destructuring of the non-iterable function throws a `TypeError`. -/
theorem getEnergy_proto_key_throws :
    ("constructor" ≠ "peak" ∧ "constructor" ≠ "bass" ∧ "constructor" ≠ "lowMid" ∧
      "constructor" ≠ "mid" ∧ "constructor" ≠ "highMid" ∧ "constructor" ≠ "treble") ∧
    getEnergyStr 8192 44100 false (fun _ _ => 0) 0 "constructor"
      = Except.error JsErr.typeError := by
  refine ⟨by decide, rfl⟩

/-- C10 (amended).  A string argument that is neither `'peak'`, nor one of
the preset names `bass`, `lowMid`, `mid`, `highMid`, `treble`, nor a
property name inherited from `Object.prototype` makes `getEnergy` return
`null` rather than raising, leaving all analyzer state unchanged (the
method performs no writes, which the pure-function embedding reflects); for
an inherited property name such as `'constructor'` or `'toString'` the
lookup is truthy and the array destructuring throws a `TypeError`
instead. -/
theorem getEnergy_unknown_cases (fftSize : ℕ) (sampleRate : ℚ) (isStereo : Bool)
    (fftData : ℕ → ℕ → ℚ) (energyPeak : ℚ) (name : String)
    (h1 : name ≠ "peak") (h2 : name ≠ "bass") (h3 : name ≠ "lowMid")
    (h4 : name ≠ "mid") (h5 : name ≠ "highMid") (h6 : name ≠ "treble") :
    (name ∉ objectProtoKeys →
      getEnergyStr fftSize sampleRate isStereo fftData energyPeak name
        = Except.ok none) ∧
    (name ∈ objectProtoKeys →
      getEnergyStr fftSize sampleRate isStereo fftData energyPeak name
        = Except.error JsErr.typeError) := by
  constructor
  · intro h7
    simp [getEnergyStr, energyPresets, h1, h2, h3, h4, h5, h6, h7]
  · intro h7
    simp [getEnergyStr, energyPresets, h1, h2, h3, h4, h5, h6, h7]

/-- C10 witness: `getEnergy('foo')` returns `null`. -/
theorem getEnergy_unknown_cases_at :
    getEnergyStr 8192 44100 false (fun _ _ => 0) 0 "foo" = Except.ok none :=
  (getEnergy_unknown_cases 8192 44100 false (fun _ _ => 0) 0 "foo"
    (by decide) (by decide) (by decide) (by decide) (by decide) (by decide)).1
    (by decide)

/-
  ============================================================
  Claim C4 — discrete-mode layout invariants
  ============================================================
-/

/-- Helper: updating the last bar's `endIdx` changes no bar's `posX`. -/
theorem setLastEnd_map_posX : ∀ (bs : List Bar) (i : ℤ),
    (setLastEnd bs i).map Bar.posX = bs.map Bar.posX
  | [], _ => rfl
  | [_], _ => rfl
  | b :: c :: rest, i => by
    have ih := setLastEnd_map_posX (c :: rest) i
    simp only [setLastEnd, List.map_cons] at ih ⊢
    rw [ih]

/-- Helper: updating the last bar's `endIdx` changes no bar's `dataIdx`. -/
theorem setLastEnd_map_dataIdx : ∀ (bs : List Bar) (i : ℤ),
    (setLastEnd bs i).map Bar.dataIdx = bs.map Bar.dataIdx
  | [], _ => rfl
  | [_], _ => rfl
  | b :: c :: rest, i => by
    have ih := setLastEnd_map_dataIdx (c :: rest) i
    simp only [setLastEnd, List.map_cons] at ih ⊢
    rw [ih]

/-- Helper: one loop iteration preserves the invariant. -/
theorem discreteStep_inv {pos : ℕ → ℚ} {st : DiscreteState} {i : ℕ}
    (hinv : DiscreteInv st i) : DiscreteInv (discreteStep pos st i) (i + 1) := by
  obtain ⟨hpos, hidx, hbound, hibound⟩ := hinv
  unfold discreteStep
  split
  case isTrue hlt =>
    refine ⟨?_, ?_, ?_, ?_⟩
    · simp only [List.map_append, List.map_cons, List.map_nil]
      rw [List.chain'_append]
      refine ⟨hpos, List.chain'_singleton _, ?_⟩
      intro x hx y hy
      simp only [List.head?_cons, Option.mem_def, Option.some.injEq] at hy
      subst hy
      exact lt_of_le_of_lt (hbound x (List.mem_of_mem_getLast? hx)) hlt
    · simp only [List.map_append, List.map_cons, List.map_nil]
      rw [List.chain'_append]
      refine ⟨hidx, List.chain'_singleton _, ?_⟩
      intro x hx y hy
      simp only [List.head?_cons, Option.mem_def, Option.some.injEq] at hy
      subst hy
      exact hibound x (List.mem_of_mem_getLast? hx)
    · intro q hq
      simp only [List.map_append, List.map_cons, List.map_nil, List.mem_append,
        List.mem_singleton] at hq
      rcases hq with hq | hq
      · exact le_of_lt (lt_of_le_of_lt (hbound q hq) hlt)
      · exact le_of_eq hq
    · intro n hn
      simp only [List.map_append, List.map_cons, List.map_nil, List.mem_append,
        List.mem_singleton] at hn
      rcases hn with hn | hn
      · exact le_trans (hibound n hn) (by exact_mod_cast Nat.le_succ i)
      · rw [hn]
        exact_mod_cast Nat.le_succ i
  case isFalse hge =>
    refine ⟨?_, ?_, ?_, ?_⟩
    · rw [setLastEnd_map_posX]
      exact hpos
    · rw [setLastEnd_map_dataIdx]
      exact hidx
    · rw [setLastEnd_map_posX]
      exact hbound
    · rw [setLastEnd_map_dataIdx]
      intro n hn
      exact le_trans (hibound n hn) (by exact_mod_cast Nat.le_succ i)

/-- Helper: the invariant is preserved across the whole index range. -/
theorem discreteFold_inv (pos : ℕ → ℚ) :
    ∀ (n i : ℕ) (st : DiscreteState), DiscreteInv st i →
      DiscreteInv ((List.range' i n).foldl (discreteStep pos) st) (i + n) := by
  intro n
  induction n with
  | zero =>
    intro i st h
    simpa using h
  | succ n ih =>
    intro i st h
    rw [List.range'_succ, List.foldl_cons]
    have := ih (i + 1) (discreteStep pos st i) (discreteStep_inv h)
    have harith : i + 1 + n = i + (n + 1) := by omega
    rwa [harith] at this

/-- C4.  For every configuration with `minFreq < maxFreq` (and any position
function — the source's rounded log positions included), the discrete-mode
layout has strictly increasing bar screen positions (one bar per distinct
pixel column) and nondecreasing starting FFT bin indices. -/
theorem discrete_bars_sorted (fftSize : ℕ) (sampleRate : ℚ) (pos : ℕ → ℚ)
    (minFreq maxFreq : ℚ) (hrange : minFreq < maxFreq) :
    (calcBarsDiscrete pos (freqToBin fftSize sampleRate .floor minFreq).toNat
        (freqToBin fftSize sampleRate .round maxFreq).toNat).Chain'
      (fun a b => a.posX < b.posX) ∧
    (calcBarsDiscrete pos (freqToBin fftSize sampleRate .floor minFreq).toNat
        (freqToBin fftSize sampleRate .round maxFreq).toNat).Chain'
      (fun a b => a.dataIdx ≤ b.dataIdx) := by
  have hinit : DiscreteInv { bars := [], lastPos := -999 }
      (freqToBin fftSize sampleRate .floor minFreq).toNat := by
    refine ⟨by simp, by simp, by simp, by simp⟩
  have h := discreteFold_inv pos
    ((freqToBin fftSize sampleRate .round maxFreq).toNat + 1
      - (freqToBin fftSize sampleRate .floor minFreq).toNat)
    ((freqToBin fftSize sampleRate .floor minFreq).toNat)
    { bars := [], lastPos := -999 } hinit
  obtain ⟨h1, h2, -, -⟩ := h
  rw [List.chain'_map] at h1 h2
  exact ⟨h1, h2⟩

/-- C4 witness: a small concrete configuration (fftSize 32, sample rate
44100, range 20..22000, identity position function) whose bar list is
verified sorted by applying the theorem. -/
theorem discrete_bars_sorted_at :
    (calcBarsDiscrete (fun i => (i : ℚ)) (freqToBin 32 44100 .floor 20).toNat
        (freqToBin 32 44100 .round 22000).toNat).Chain'
      (fun a b => a.posX < b.posX) ∧
    (calcBarsDiscrete (fun i => (i : ℚ)) (freqToBin 32 44100 .floor 20).toNat
        (freqToBin 32 44100 .round 22000).toNat).Chain'
      (fun a b => a.dataIdx ≤ b.dataIdx) :=
  discrete_bars_sorted 32 44100 (fun i => (i : ℚ)) 20 22000 (by norm_num)

/-
  ============================================================
  Claim C8 — first discrete bar starts at bin floor(20·8192/44100)
  ============================================================
-/

/-- Helper: updating the last bar's `endIdx` keeps the head's `dataIdx`. -/
theorem setLastEnd_head_dataIdx : ∀ (bs : List Bar) (i : ℤ),
    (setLastEnd bs i).head?.map Bar.dataIdx = bs.head?.map Bar.dataIdx
  | [], _ => rfl
  | [_], _ => rfl
  | _ :: _ :: _, _ => rfl

/-- Helper: updating the last bar's `endIdx` keeps the list nonempty. -/
theorem setLastEnd_ne_nil : ∀ (bs : List Bar) (i : ℤ), bs ≠ [] → setLastEnd bs i ≠ []
  | [], _, h => absurd rfl h
  | [_], _, _ => by simp [setLastEnd]
  | _ :: _ :: _, _, _ => by simp [setLastEnd]

/-- Helper: once a first bar exists, the rest of the discrete loop never
changes its `dataIdx` (later iterations only append bars or update the last
bar's `endIdx`). -/
theorem discreteFold_head_dataIdx (pos : ℕ → ℚ) :
    ∀ (l : List ℕ) (st : DiscreteState), st.bars ≠ [] →
      ((l.foldl (discreteStep pos) st).bars.head?.map Bar.dataIdx)
        = st.bars.head?.map Bar.dataIdx := by
  intro l
  induction l with
  | nil =>
    intro st _
    rfl
  | cons j rest ih =>
    intro st hne
    rw [List.foldl_cons]
    have hstep_head : (discreteStep pos st j).bars.head?.map Bar.dataIdx
        = st.bars.head?.map Bar.dataIdx := by
      unfold discreteStep
      split
      · obtain ⟨b, t, heq⟩ := List.exists_cons_of_ne_nil hne
        rw [heq]
        simp
      · exact setLastEnd_head_dataIdx st.bars (j : ℤ)
    have hstep_ne : (discreteStep pos st j).bars ≠ [] := by
      unfold discreteStep
      split
      · simp
      · exact setLastEnd_ne_nil st.bars (j : ℤ) hne
    rw [ih (discreteStep pos st j) hstep_ne, hstep_head]

/-- Helper: whenever `minIndex ≤ maxIndex` and the position of the first bin
lies above the `-999` sentinel, the first discrete bar starts at
`minIndex`. -/
theorem calcBarsDiscrete_head (pos : ℕ → ℚ) (minIndex maxIndex : ℕ)
    (hle : minIndex ≤ maxIndex) (hp : -999 < pos minIndex) :
    (calcBarsDiscrete pos minIndex maxIndex).head?.map Bar.dataIdx
      = some (minIndex : ℤ) := by
  unfold calcBarsDiscrete
  obtain ⟨n, hn⟩ : ∃ n, maxIndex + 1 - minIndex = n + 1 := ⟨maxIndex - minIndex, by omega⟩
  rw [hn, List.range'_succ, List.foldl_cons]
  have hfirst : discreteStep pos { bars := [], lastPos := -999 } minIndex
      = { bars := [{ posX := pos minIndex, dataIdx := (minIndex : ℤ), endIdx := 0,
                     factor := 0 }],
          lastPos := pos minIndex } := by
    unfold discreteStep
    rw [if_pos hp]
    rfl
  rw [hfirst]
  have hrest := discreteFold_head_dataIdx pos (List.range' (minIndex + 1) n)
    { bars := [{ posX := pos minIndex, dataIdx := (minIndex : ℤ), endIdx := 0,
                 factor := 0 }],
      lastPos := pos minIndex } (by simp)
  rw [hrest]
  rfl

/-- C8.  With `fftSize = 8192`, `sampleRate = 44100`, `minFreq = 20`,
`maxFreq = 22000` in discrete mode, the floor-rounded minimum bin is
`⌊20·8192/44100⌋ = 3` and the first bar produced has `dataIdx = 3` — for any
position function whose value at bin 3 exceeds the `-999` sentinel (the
source's log positions lie far above it). -/
theorem discrete_first_bar_bin (pos : ℕ → ℚ) (hp : -999 < pos 3) :
    freqToBin 8192 44100 .floor 20 = 3 ∧
    ((calcBarsDiscrete pos (freqToBin 8192 44100 .floor 20).toNat
        (freqToBin 8192 44100 .round 22000).toNat).head?.map Bar.dataIdx) = some 3 := by
  have hmin : freqToBin 8192 44100 .floor 20 = 3 := by
    norm_num [freqToBin, jround]
  have hmax : freqToBin 8192 44100 .round 22000 = 4087 := by
    norm_num [freqToBin, jround]
  refine ⟨hmin, ?_⟩
  rw [hmin, hmax]
  exact calcBarsDiscrete_head pos 3 4087 (by omega) hp

/-- C8 witness: the theorem applied to the zero position function. -/
theorem discrete_first_bar_bin_at :
    freqToBin 8192 44100 .floor 20 = 3 ∧
    ((calcBarsDiscrete (fun _ => (0 : ℚ)) (freqToBin 8192 44100 .floor 20).toNat
        (freqToBin 8192 44100 .round 22000).toNat).head?.map Bar.dataIdx) = some 3 :=
  discrete_first_bar_bin (fun _ => (0 : ℚ)) (by norm_num)

/-
  ============================================================
  Claim C7 — octave-band bar count with notesPerBand = 1
  ============================================================
-/

/-- Helper: assigning run factors does not change the number of bars. -/
theorem setRunFactors_length (bs : List Bar) (n : ℕ) :
    (setRunFactors bs n).length = bs.length := by
  simp [setRunFactors]

/-- Helper: the octave-band loop pushes exactly one bar per tempered-scale
entry. -/
theorem octaveBuild_length (binOf : ℕ → ℤ) (barWidth : ℚ) :
    ∀ (scale : List ℕ) (index : ℕ) (st : OctaveState),
      (octaveBuild binOf barWidth scale index st).bars.length
        = st.bars.length + scale.length := by
  intro scale
  induction scale with
  | nil =>
    intro index st
    simp [octaveBuild]
  | cons s rest ih =>
    intro index st
    simp only [octaveBuild, ih, List.length_append, List.length_cons]
    split_ifs <;> simp [setRunFactors_length] <;> omega

set_option maxRecDepth 1000000 in
/-- C7 counterexample.  Over `[20, 20000]` with `notesPerBand = 1` the
builder retains every 24-tone (quarter-tone) step — 240 of them — and
produces 240 bars, whereas the number of equal-tempered semitone frequencies
in that range anchored at `C0` is 120: the claimed bar count is wrong by a
factor of two. -/
theorem octave_count_ne_semitone_count :
    (calcBarsOctave (fun _ => 0) (1000 / 240) (buildScale 20 20000 1 300 0)).length = 240 ∧
    semitoneCount 20 20000 300 = 120 ∧
    (240 : ℕ) ≠ 120 := by
  refine ⟨?_, by decide, by decide⟩
  have h := octaveBuild_length (fun _ => 0) (1000 / 240) (buildScale 20 20000 1 300 0) 0
    { bars := [], prevBin := 0, prevIdx := -1, nBars := 0 }
  unfold calcBarsOctave
  rw [h]
  simp only [List.length_nil, Nat.zero_add]
  decide

set_option maxRecDepth 1000000 in
/-- C7 (amended).  In octave-band mode with `notesPerBand = 1` over
`[20, 20000]`, the layout builder produces exactly one bar per retained
note of the 24-tone equal-tempered scale anchored at `C0 = 440·2^(−114/24)`
(quarter-tone granularity, not semitone): the bar count equals the number of
quarter-tone frequencies in that range, namely 240. -/
theorem octave_bar_count (binOf : ℕ → ℤ) (barWidth : ℚ) :
    (∀ scale : List ℕ, (calcBarsOctave binOf barWidth scale).length = scale.length) ∧
    (calcBarsOctave binOf barWidth (buildScale 20 20000 1 300 0)).length
      = quarterToneCount 20 20000 300 ∧
    quarterToneCount 20 20000 300 = 240 := by
  have hlen : ∀ scale : List ℕ,
      (calcBarsOctave binOf barWidth scale).length = scale.length := by
    intro scale
    have h := octaveBuild_length binOf barWidth scale 0
      { bars := [], prevBin := 0, prevIdx := -1, nBars := 0 }
    unfold calcBarsOctave
    rw [h]
    simp
  refine ⟨hlen, ?_, by decide⟩
  rw [hlen]
  decide

/-- C7 witness: the amended count at a concrete bin function and bar
width. -/
theorem octave_bar_count_at :
    (calcBarsOctave (fun _ => 0) 1 (buildScale 20 20000 1 300 0)).length
      = quarterToneCount 20 20000 300 ∧
    quarterToneCount 20 20000 300 = 240 :=
  ⟨(octave_bar_count (fun _ => 0) 1).2.1, (octave_bar_count (fun _ => 0) 1).2.2⟩

end AudioMotion
